import Mathlib

/-!
Shallow embedding of `src/scripts/parse-files.py` (document batch uploader).

Conventions of the embedding:
* A filesystem path is a list of name components.  All candidate paths are
  modelled relative to `input_dir` (the script only ever uses
  `file_path.relative_to(self.input_dir)` and the final name component of a
  candidate, so the absolute prefix is irrelevant).
* Python `pathlib` accessors (`name`, `suffix`, `stem`) are translated from
  their CPython definitions.
* `str.lower` is modelled on ASCII letters, which is exact for comparisons
  against the ASCII extension allow set.
* The remote API is an oracle mapping each candidate path to an outcome:
  an exception during the request, or a response with a status code and an
  optional parsed JSON-object body (`none` models a body `response.json()`
  fails to parse).
* Console printing and directory creation are side effects with no bearing
  on the claims and are not modelled; file writes are modelled as a list of
  (path, content) pairs in write order.
-/

/-- Python `str.lower`, restricted to ASCII letters (exact for all
comparisons against the ASCII extension set performed by the script). -/
def pyLower (s : String) : String :=
  ⟨s.data.map Char.toLower⟩

/-- Index of the last occurrence of `c` in `cs` (Python `str.rfind`),
`none` when absent. -/
def rfindIdx (c : Char) (cs : List Char) : Option Nat :=
  match List.findIdx? (fun x => x = c) cs.reverse with
  | none => none
  | some j => some (cs.length - 1 - j)

/-- CPython `PurePath.suffix` of a final component: the substring from the
last dot onward, provided that dot is neither the first nor the last
character; otherwise the empty string. -/
def pySuffix (name : String) : String :=
  match rfindIdx '.' name.data with
  | none => ""
  | some i => if 0 < i ∧ i + 1 < name.data.length then ⟨name.data.drop i⟩ else ""

/-- CPython `PurePath.stem` of a final component: the part before the last
dot under the same side conditions as `pySuffix`, else the whole name. -/
def pyStem (name : String) : String :=
  match rfindIdx '.' name.data with
  | none => name
  | some i => if 0 < i ∧ i + 1 < name.data.length then ⟨name.data.take i⟩ else name

/-- `DocumentProcessor.get_safe_filename`: Python
`filename.replace(' ', '_')`; for a single-character pattern this is the
character-wise map sending each space to an underscore. -/
def get_safe_filename (filename : String) : String :=
  ⟨filename.data.map (fun c => if c = ' ' then '_' else c)⟩

/-- `Path.name`: the final component of a path. -/
def pathName (p : List String) : String :=
  p.getLastD ""

/-- `IGNORE_FILES` from the script. -/
def IGNORE_FILES : List String :=
  [".DS_Store", "Thumbs.db", ".gitignore"]

/-- `VALID_EXTENSIONS` from the script. -/
def VALID_EXTENSIONS : List String :=
  [".ppt", ".pptx", ".doc", ".docx", ".pdf", ".txt"]

/-- `DocumentProcessor.should_process_file`: reject names in the ignore
set, then reject when the lower-cased suffix is not in the allow set. -/
def should_process_file (p : List String) : Bool :=
  if pathName p ∈ IGNORE_FILES then false
  else if pyLower (pySuffix (pathName p)) ∉ VALID_EXTENSIONS then false
  else true

/-- A directory tree entry: a regular file or a directory with children. -/
inductive Entry where
  | file (name : String)
  | dir (name : String) (children : List Entry)
deriving Repr

/-- `Path.is_file` on an entry. -/
def Entry.isFile : Entry → Bool
  | Entry.file _ => true
  | Entry.dir _ _ => false

/-- `Path.rglob('*')` over the children of a directory: every entry (file
or directory) reachable at any depth, with its path relative to the root,
in traversal order. -/
def walkList (pre : List String) : List Entry → List (List String × Entry)
  | [] => []
  | Entry.file n :: rest => (pre ++ [n], Entry.file n) :: walkList pre rest
  | Entry.dir n cs :: rest =>
      (pre ++ [n], Entry.dir n cs) :: (walkList (pre ++ [n]) cs ++ walkList pre rest)

/-- `DocumentProcessor.get_all_files`: keep entries that are regular files
and pass `should_process_file`, returning their paths. -/
def get_all_files (tree : List Entry) : List (List String) :=
  ((walkList [] tree).filter (fun pe => pe.2.isFile && should_process_file pe.1)).map Prod.fst

/-- A parsed JSON value (floats are outside the scope of this
development; the claims never involve numeric payloads). -/
inductive Json where
  | null
  | bool (b : Bool)
  | num (n : Int)
  | str (s : String)
  | arr (elems : List Json)
  | obj (fields : List (String × Json))

/-- A parsed JSON object body, as the Python `dict` the script assumes:
an association list of key/value pairs (keys distinct in any dict produced
by `json` parsing). -/
abbrev Dict := List (String × Json)

/-- Python `d['k']` / `'k' in d` on a dict: first binding of the key. -/
def dictLookup (k : String) : Dict → Option Json
  | [] => none
  | (k2, v) :: rest => if k2 = k then some v else dictLookup k rest

/-- Lower-case hexadecimal digit, as used by Python json \u escapes. -/
def hexDigit (n : Nat) : Char :=
  if n < 10 then Char.ofNat (48 + n) else Char.ofNat (87 + n)

/-- Escaping of one character inside a JSON string literal as done by
Python `json.dump` with `ensure_ascii=False`. -/
def jsonEscapeChar (c : Char) : String :=
  if c = '"' then "\\\""
  else if c = '\\' then "\\\\"
  else if c = '\n' then "\\n"
  else if c = '\t' then "\\t"
  else if c = '\r' then "\\r"
  else if c = '\x08' then "\\b"
  else if c = '\x0c' then "\\f"
  else if c.val < 32 then
    "\\u00" ++ ⟨[hexDigit (c.val.toNat / 16), hexDigit (c.val.toNat % 16)]⟩
  else Char.toString c

/-- A JSON string literal with its delimiting quotes. -/
def jsonQuote (s : String) : String :=
  "\"" ++ String.join (s.data.map jsonEscapeChar) ++ "\""

/-- Indentation produced by `json.dump(..., indent=2)` at nesting level
`lvl`. -/
def indentStr (lvl : Nat) : String :=
  ⟨List.replicate (2 * lvl) ' '⟩

/-- Serializer for `json.dump(..., indent=2, ensure_ascii=False)` at a
given nesting level: items of containers one level deeper, separated by
a comma and newline, keys followed by a colon and a space. -/
def dumpJ (lvl : Nat) : Json → String
  | Json.null => "null"
  | Json.bool true => "true"
  | Json.bool false => "false"
  | Json.num n => toString n
  | Json.str s => jsonQuote s
  | Json.arr [] => "[]"
  | Json.arr (x :: xs) =>
      "[\n" ++
        String.intercalate ",\n"
          ((x :: xs).attach.map (fun e => indentStr (lvl + 1) ++ dumpJ (lvl + 1) e.1)) ++
        "\n" ++ indentStr lvl ++ "]"
  | Json.obj [] => "\x7b\x7d"
  | Json.obj (f :: fs) =>
      "\x7b\n" ++
        String.intercalate ",\n"
          ((f :: fs).attach.map (fun kv =>
            indentStr (lvl + 1) ++ jsonQuote kv.1.1 ++ ": " ++ dumpJ (lvl + 1) kv.1.2)) ++
        "\n" ++ indentStr lvl ++ "\x7d"
termination_by j => sizeOf j
decreasing_by
  all_goals simp_wf
  · have h := List.sizeOf_lt_of_mem e.2
    simp at h
    omega
  · have h := List.sizeOf_lt_of_mem kv.2
    obtain ⟨⟨k, v⟩, hm⟩ := kv
    simp at h ⊢
    omega

/-- `json.dump(response_data, f, indent=2, ensure_ascii=False)` rendered
to the string written into the artifact. -/
def json_dump (j : Json) : String :=
  dumpJ 0 j

/-- Outcome of the single `POST` issued for one file: an exception
anywhere inside the `try` block (file open, transport, body parsing is
separate), or a response carrying a status code and the parsed body
(`none` when `response.json()` raises). -/
inductive ApiOutcome where
  | exn
  | resp (status : Nat) (body : Option Dict)

/-- `DocumentProcessor.process_single_file`: `None` on any exception; on a
response, `None` unless the status is exactly 200, else the parsed body
(`None` when parsing raised, caught by the same handler). -/
def process_single_file : ApiOutcome → Option Dict
  | ApiOutcome.exn => none
  | ApiOutcome.resp status body => if status = 200 then body else none

/-- Path of the structured-data artifact for the candidate with
input-relative path `rel`: `output_dir/json/<rel parent>/<safe stem>.json`. -/
def jsonArtifactPath (outDir rel : List String) : List String :=
  outDir ++ ["json"] ++ rel.dropLast ++ [get_safe_filename (pyStem (pathName rel)) ++ ".json"]

/-- Path of the text artifact for the candidate with input-relative path
`rel`: `output_dir/markdown/<rel parent>/<safe stem>.md`. -/
def mdArtifactPath (outDir rel : List String) : List String :=
  outDir ++ ["markdown"] ++ rel.dropLast ++ [get_safe_filename (pyStem (pathName rel)) ++ ".md"]

/-- Result of `DocumentProcessor.save_outputs`: the (path, content) pairs
written, in order, and whether the call raised (`f.write` on a non-string
raises `TypeError` after `open` has already created the empty file). -/
structure SaveResult where
  writes : List (List String × String)
  raised : Bool
deriving Repr

/-- `DocumentProcessor.save_outputs`: always write the serialized response
to the json artifact path; then, when the key `text` is present, write its
value to the markdown artifact path — verbatim when it is a string, a
`TypeError` from `f.write` otherwise (leaving the just-opened empty file). -/
def save_outputs (outDir rel : List String) (d : Dict) : SaveResult :=
  let jw := (jsonArtifactPath outDir rel, json_dump (Json.obj d))
  match dictLookup "text" d with
  | none => ⟨[jw], false⟩
  | some (Json.str s) => ⟨[jw, (mdArtifactPath outDir rel, s)], false⟩
  | some _ => ⟨[jw, (mdArtifactPath outDir rel, "")], true⟩

/-- Per-file console state reached by the orchestrator loop. -/
inductive FileStatus where
  | succeeded
  | failed
deriving Repr, DecidableEq

/-- Result of `DocumentProcessor.process_directory` over a file list: all
artifact writes in order, the per-file statuses in file order, and whether
the loop was aborted by an exception escaping `save_outputs` (which
propagates out of `asyncio.run` to `main`). -/
structure RunResult where
  writes : List (List String × String)
  statuses : List FileStatus
  aborted : Bool
deriving Repr

/-- The loop body of `DocumentProcessor.process_directory`: for each file
in order, call `process_single_file`; the Python guard `if response_data:`
is truthiness, so both `None` and an empty dict take the failure branch;
otherwise `save_outputs` runs (an exception there ends the loop). -/
def process_directory (outDir : List String) (api : List String → ApiOutcome) :
    List (List String) → RunResult
  | [] => ⟨[], [], false⟩
  | f :: fs =>
    match process_single_file (api f) with
    | none =>
        let r := process_directory outDir api fs
        ⟨r.writes, FileStatus.failed :: r.statuses, r.aborted⟩
    | some d =>
        if d.isEmpty then
          let r := process_directory outDir api fs
          ⟨r.writes, FileStatus.failed :: r.statuses, r.aborted⟩
        else
          let s := save_outputs outDir f d
          if s.raised then ⟨s.writes, [], true⟩
          else
            let r := process_directory outDir api fs
            ⟨s.writes ++ r.writes, FileStatus.succeeded :: r.statuses, r.aborted⟩

/-- Characters allowed in a URL scheme after the first (CPython
`urllib.parse`: letters, digits, plus, minus, dot). -/
def isSchemeChar (c : Char) : Bool :=
  c.isAlpha || c.isDigit || c = '+' || c = '-' || c = '.'

/-- CPython `urlsplit` scheme extraction: the part before the first colon
when it is nonempty, starts with a letter and consists of scheme
characters, lower-cased; otherwise no scheme.  Returns (scheme, rest). -/
def splitScheme (s : String) : String × String :=
  match List.findIdx? (fun x => x = ':') s.data with
  | none => ("", s)
  | some i =>
    let headAlpha : Bool :=
      match s.data.head? with
      | some c => c.isAlpha
      | none => false
    if 0 < i ∧ (s.data.take i).all isSchemeChar = true ∧ headAlpha = true then
      (pyLower ⟨s.data.take i⟩, ⟨s.data.drop (i + 1)⟩)
    else ("", s)

/-- CPython `urlsplit` netloc extraction from the remainder after the
scheme: present only after a leading double slash, running up to the next
slash, question mark or hash. -/
def splitNetloc (s : String) : String :=
  match s.data with
  | '/' :: '/' :: rest =>
      ⟨rest.takeWhile (fun c => c ≠ '/' && c ≠ '?' && c ≠ '#')⟩
  | _ => ""

/-- `validate_url`: Python `all([result.scheme, result.netloc])` on the
parse of the URL — both components nonempty (string truthiness). -/
def validate_url (url : String) : Bool :=
  let sr := splitScheme url
  sr.1 ≠ "" && splitNetloc sr.2 ≠ ""

/-- Observable outcome of one whole invocation: the process exit code,
whether the input tree was ever scanned (`get_all_files` reached), and
the artifact writes performed. -/
structure MainResult where
  exitCode : Nat
  scanned : Bool
  writes : List (List String × String)
deriving Repr

/-- The `main` entry point plus `argparse`: an `--api-url` value rejected
by `validate_url` raises `argparse.ArgumentTypeError` inside
`parse_args`, which argparse turns into a usage error, `sys.exit(2)` —
before `DocumentProcessor` is constructed.  A missing input directory
raises `ValueError` in the constructor, caught in `main`, `return 1` —
before any scan.  Otherwise the run proceeds; an exception escaping the
per-file loop (from `save_outputs`) reaches the generic handler,
`return 1`; else `return 0` (also for an empty file list). -/
def mainRun (apiUrl : String) (inputDirExists : Bool) (outDir : List String)
    (tree : List Entry) (api : List String → ApiOutcome) : MainResult :=
  if validate_url apiUrl = false then
    ⟨2, false, []⟩
  else if inputDirExists = false then
    ⟨1, false, []⟩
  else
    let r := process_directory outDir api (get_all_files tree)
    ⟨if r.aborted then 1 else 0, true, r.writes⟩

/-- The output filesystem as a map from artifact path to current file
content. -/
abbrev Store := List String → Option String

/-- One `open(path, 'w')` plus write: overwrite whatever was at `path`. -/
def writeStore (sigma : Store) (p : List String) (c : String) : Store :=
  fun q => if q = p then some c else sigma q

/-- Apply a list of writes, in order, to a store. -/
def applyWrites (sigma : Store) : List (List String × String) → Store
  | [] => sigma
  | (p, c) :: ws => applyWrites (writeStore sigma p c) ws

/-- The last content written at path `q` by the write list, if any. -/
def findLastWrite (ws : List (List String × String)) (q : List String) : Option String :=
  match ws with
  | [] => none
  | (p, c) :: rest =>
      match findLastWrite rest q with
      | some c2 => some c2
      | none => if q = p then some c else none

/-- Bool-valued discriminator for string JSON values (statement helper). -/
def Json.isStr : Json → Bool
  | Json.str _ => true
  | _ => false

/-- API oracle used to exercise the failure-isolation theorem: a 500
response for `x.txt`, a good response for everything else. -/
def c3Api : List String → ApiOutcome :=
  fun p =>
    if p = ["x.txt"] then ApiOutcome.resp 500 none
    else ApiOutcome.resp 200 (some [("text", Json.str "ok")])

/-- API oracle used to exercise the safe-stem collision: one body for
`a b.txt`, another for everything else. -/
def c9Api : List String → ApiOutcome :=
  fun p =>
    if p = ["a b.txt"] then ApiOutcome.resp 200 (some [("a", Json.null)])
    else ApiOutcome.resp 200 (some [("b", Json.null)])

/-- API oracle used to exercise the artifact-location theorem: every file
gets a 200 response whose body carries a string `text` field. -/
def c4Api : List String → ApiOutcome :=
  fun _ => ApiOutcome.resp 200 (some [("text", Json.str "hello")])

theorem should_process_file_iff (p : List String) :
    should_process_file p = true ↔
      pathName p ∉ IGNORE_FILES ∧ pyLower (pySuffix (pathName p)) ∈ VALID_EXTENSIONS := by
  unfold should_process_file
  by_cases h1 : pathName p ∈ IGNORE_FILES
  · simp [h1]
  · by_cases h2 : pyLower (pySuffix (pathName p)) ∈ VALID_EXTENSIONS
    · simp [h1, h2]
    · simp [h1, h2]

theorem mem_get_all_files (tree : List Entry) (p : List String) :
    p ∈ get_all_files tree ↔
      ∃ e : Entry, (p, e) ∈ walkList [] tree ∧ e.isFile = true ∧ should_process_file p = true := by
  unfold get_all_files
  constructor
  · intro h
    rcases List.mem_map.mp h with ⟨⟨p0, e⟩, hmem, hp⟩
    rcases List.mem_filter.mp hmem with ⟨hwalk, hq⟩
    simp only [Bool.and_eq_true] at hq
    rcases hq with ⟨hfile, hproc⟩
    subst hp
    exact ⟨e, hwalk, hfile, hproc⟩
  · rintro ⟨e, hmem, hfile, hproc⟩
    refine List.mem_map.mpr ⟨(p, e), List.mem_filter.mpr ⟨hmem, ?_⟩, rfl⟩
    simp only [Bool.and_eq_true]
    exact ⟨hfile, hproc⟩

theorem md_ne_json (outDir rel : List String) :
    mdArtifactPath outDir rel ≠ jsonArtifactPath outDir rel := by
  intro h
  have h2 : outDir ++
      ("markdown" :: (rel.dropLast ++ [get_safe_filename (pyStem (pathName rel)) ++ ".md"])) =
      outDir ++
      ("json" :: (rel.dropLast ++ [get_safe_filename (pyStem (pathName rel)) ++ ".json"])) := by
    simp only [mdArtifactPath, jsonArtifactPath, List.append_assoc] at h
    exact h
  have h3 := List.append_cancel_left h2
  simp at h3

theorem json_write_mem (outDir rel : List String) (d : Dict) :
    (jsonArtifactPath outDir rel, json_dump (Json.obj d)) ∈ (save_outputs outDir rel d).writes := by
  cases h : dictLookup "text" d with
  | none => simp [save_outputs, h]
  | some v => cases v <;> simp [save_outputs, h]

theorem save_writes_paths (outDir rel : List String) (d : Dict) :
    ∀ w ∈ (save_outputs outDir rel d).writes,
      w.1 = jsonArtifactPath outDir rel ∨ w.1 = mdArtifactPath outDir rel := by
  intro w hw
  rcases h : dictLookup "text" d with _ | v
  · simp [save_outputs, h] at hw
    exact Or.inl (by rw [hw])
  · cases v <;> simp [save_outputs, h] at hw <;>
      rcases hw with hw | hw <;> simp [hw]

theorem applyWrites_eq (ws : List (List String × String)) (sigma : Store) (q : List String) :
    applyWrites sigma ws q =
      match findLastWrite ws q with
      | some c => some c
      | none => sigma q := by
  induction ws generalizing sigma with
  | nil => rfl
  | cons pc ws ih =>
      obtain ⟨p, c⟩ := pc
      show applyWrites (writeStore sigma p c) ws q = _
      rw [ih]
      simp only [findLastWrite]
      cases h : findLastWrite ws q with
      | some c2 => simp [h]
      | none =>
          simp only [h]
          by_cases hq : q = p <;> simp [writeStore, hq]

theorem process_directory_append (outDir : List String) (api : List String → ApiOutcome)
    (l₁ l₂ : List (List String))
    (h : (process_directory outDir api l₁).aborted = false) :
    process_directory outDir api (l₁ ++ l₂) =
      ⟨(process_directory outDir api l₁).writes ++ (process_directory outDir api l₂).writes,
       (process_directory outDir api l₁).statuses ++ (process_directory outDir api l₂).statuses,
       (process_directory outDir api l₂).aborted⟩ := by
  induction l₁ with
  | nil => simp [process_directory]
  | cons f fs ih =>
      cases hps : process_single_file (api f) with
      | none =>
          have h' : (process_directory outDir api fs).aborted = false := by
            simp only [process_directory, hps] at h
            exact h
          simp only [List.cons_append, process_directory, hps, List.append_eq]
          rw [ih h']
      | some d =>
          cases hd : d.isEmpty with
          | true =>
              have h' : (process_directory outDir api fs).aborted = false := by
                simp only [process_directory, hps, hd, if_true] at h
                exact h
              simp only [List.cons_append, process_directory, hps, hd, if_true, List.append_eq]
              rw [ih h']
          | false =>
              cases hr : (save_outputs outDir f d).raised with
              | true =>
                  exfalso
                  simp only [process_directory, hps, hd, Bool.false_eq_true, if_false, hr,
                    if_true] at h
                  exact Bool.noConfusion h
              | false =>
                  have h' : (process_directory outDir api fs).aborted = false := by
                    simp only [process_directory, hps, hd, Bool.false_eq_true, if_false, hr] at h
                    exact h
                  simp only [List.cons_append, process_directory, hps, hd, Bool.false_eq_true,
                    if_false, hr, List.append_eq]
                  rw [ih h']
                  simp [List.append_assoc]

/-- C1: a path is in the discovered candidate list iff some regular-file
entry is reachable at that path under the input root (so directories are
never included) and its base name is outside the ignore set while its
lower-cased extension is in the allow set. -/
theorem c1_candidate_filter (tree : List Entry) (p : List String) :
    p ∈ get_all_files tree ↔
      (∃ e : Entry, (p, e) ∈ walkList [] tree ∧ e.isFile = true) ∧
      (pathName p ∉ IGNORE_FILES ∧ pyLower (pySuffix (pathName p)) ∈ VALID_EXTENSIONS) := by
  rw [mem_get_all_files]
  constructor
  · rintro ⟨e, hmem, hfile, hproc⟩
    exact ⟨⟨e, hmem, hfile⟩, (should_process_file_iff p).mp hproc⟩
  · rintro ⟨⟨e, hmem, hfile⟩, hcond⟩
    exact ⟨e, hmem, hfile, (should_process_file_iff p).mpr hcond⟩

/-- C2 counterexample: an upload that returns HTTP 200 with the parseable
JSON body `{}` is nevertheless marked failed by the orchestrator guard
`if response_data:` (an empty dict is falsy), so the output writer is not
invoked and no structured artifact is written. -/
theorem c2_writer_counterexample :
    process_directory ["out"] (fun _ => ApiOutcome.resp 200 (some [])) [["doc.txt"]] =
      ⟨[], [FileStatus.failed], false⟩ :=
  rfl

/-- C2 amended: after an HTTP 200 response with a parseable JSON body,
the output writer runs iff the parsed body is truthy; for a non-empty
dict the structured artifact is written (before any text handling), while
for the empty dict the file is marked failed and the run continues with
the remaining files untouched by it. -/
theorem c2_writer_truthiness (outDir f : List String) (fs : List (List String))
    (api : List String → ApiOutcome) (d : Dict)
    (hapi : api f = ApiOutcome.resp 200 (some d)) :
    (d.isEmpty = false →
      (jsonArtifactPath outDir f, json_dump (Json.obj d)) ∈
        (process_directory outDir api (f :: fs)).writes) ∧
    (d.isEmpty = true →
      process_directory outDir api (f :: fs) =
        ⟨(process_directory outDir api fs).writes,
         FileStatus.failed :: (process_directory outDir api fs).statuses,
         (process_directory outDir api fs).aborted⟩) := by
  have hps : process_single_file (api f) = some d := by
    rw [hapi]
    simp [process_single_file]
  constructor
  · intro hne
    simp only [process_directory, hps]
    simp only [hne, Bool.false_eq_true, if_false]
    by_cases hr : (save_outputs outDir f d).raised
    · simp only [hr, if_true]
      exact json_write_mem outDir f d
    · simp only [hr, Bool.false_eq_true, if_false]
      exact List.mem_append_left _ (json_write_mem outDir f d)
  · intro he
    simp only [process_directory, hps]
    simp only [he, if_true]

/-- C2 witness: a concrete 200 response with non-empty body produces the
structured artifact among the run's writes. -/
theorem c2_writer_truthiness_w :
    (jsonArtifactPath ["o"] ["a.txt"], json_dump (Json.obj [("k", Json.null)])) ∈
      (process_directory ["o"] (fun _ => ApiOutcome.resp 200 (some [("k", Json.null)]))
        [["a.txt"]]).writes :=
  (c2_writer_truthiness ["o"] ["a.txt"] []
      (fun _ => ApiOutcome.resp 200 (some [("k", Json.null)])) [("k", Json.null)] rfl).1 rfl

/-- C3: a per-file failure is isolated: on an exception during the request
or on any non-200 status the uploader returns no result rather than
raising, the file is marked failed, and the run on the remaining files is
exactly the run that would have happened without the failing file. -/
theorem c3_failure_isolation (outDir f : List String) (fs : List (List String))
    (api : List String → ApiOutcome)
    (h : api f = ApiOutcome.exn ∨ ∃ st b, st ≠ 200 ∧ api f = ApiOutcome.resp st b) :
    process_single_file (api f) = none ∧
    process_directory outDir api (f :: fs) =
      ⟨(process_directory outDir api fs).writes,
       FileStatus.failed :: (process_directory outDir api fs).statuses,
       (process_directory outDir api fs).aborted⟩ := by
  have hnone : process_single_file (api f) = none := by
    rcases h with h | ⟨st, b, hst, h⟩
    · rw [h]
      rfl
    · rw [h]
      simp [process_single_file, hst]
  refine ⟨hnone, ?_⟩
  simp only [process_directory, hnone]

/-- C3 witness: a 500 response for the first file leaves the second
file's processing unchanged. -/
theorem c3_failure_isolation_w :
    process_single_file (c3Api ["x.txt"]) = none ∧
    process_directory ["o"] c3Api [["x.txt"], ["y.txt"]] =
      ⟨(process_directory ["o"] c3Api [["y.txt"]]).writes,
       FileStatus.failed :: (process_directory ["o"] c3Api [["y.txt"]]).statuses,
       (process_directory ["o"] c3Api [["y.txt"]]).aborted⟩ :=
  c3_failure_isolation ["o"] ["x.txt"] [["y.txt"]] c3Api
    (Or.inr ⟨500, none, by decide, rfl⟩)

/-- C4: for every successfully processed file — any file `f` at any
position of the candidate list whose preceding files did not abort the
run and whose upload yields HTTP 200 with a truthy parsed body `d` — the
run's writes are exactly the preceding files' writes, then `f`'s own
writer invocation, then (absent a raise) the following files' writes;
and that invocation writes `f`'s own serialized response first, at `f`'s
own `<out>/json/<relative dir>/<safe stem>.json` path, followed, exactly
when the result maps `text` to a string, by that string verbatim at
`f`'s own `<out>/markdown/<relative dir>/<safe stem>.md` path (a result
with no `text` key yields the structured artifact alone). -/
theorem c4_artifact_path_shape (outDir f : List String) (pre post : List (List String))
    (api : List String → ApiOutcome) (d : Dict)
    (hpre : (process_directory outDir api pre).aborted = false)
    (hapi : api f = ApiOutcome.resp 200 (some d))
    (hd : d.isEmpty = false) :
    (process_directory outDir api (pre ++ f :: post)).writes =
      (process_directory outDir api pre).writes ++
        ((save_outputs outDir f d).writes ++
          (if (save_outputs outDir f d).raised then []
           else (process_directory outDir api post).writes)) ∧
    (save_outputs outDir f d).writes.head? =
      some (outDir ++ ["json"] ++ f.dropLast ++
              [get_safe_filename (pyStem (pathName f)) ++ ".json"],
            json_dump (Json.obj d)) ∧
    (∀ s : String, dictLookup "text" d = some (Json.str s) →
      (save_outputs outDir f d).writes =
        [(outDir ++ ["json"] ++ f.dropLast ++
            [get_safe_filename (pyStem (pathName f)) ++ ".json"],
          json_dump (Json.obj d)),
         (outDir ++ ["markdown"] ++ f.dropLast ++
            [get_safe_filename (pyStem (pathName f)) ++ ".md"], s)]) ∧
    (dictLookup "text" d = none →
      (save_outputs outDir f d).writes =
        [(outDir ++ ["json"] ++ f.dropLast ++
            [get_safe_filename (pyStem (pathName f)) ++ ".json"],
          json_dump (Json.obj d))]) := by
  have hps : process_single_file (api f) = some d := by
    rw [hapi]
    simp [process_single_file]
  refine ⟨?_, ?_, ?_, ?_⟩
  · rw [process_directory_append outDir api pre (f :: post) hpre]
    simp only [process_directory, hps, hd, Bool.false_eq_true, if_false]
    cases hr : (save_outputs outDir f d).raised with
    | true => simp [hr]
    | false => simp [hr]
  · rcases hl : dictLookup "text" d with _ | v
    · simp [save_outputs, hl, jsonArtifactPath]
    · cases v <;> simp [save_outputs, hl, jsonArtifactPath]
  · intro s hs
    simp [save_outputs, hs, jsonArtifactPath, mdArtifactPath]
  · intro hn
    simp [save_outputs, hn, jsonArtifactPath]

/-- C4 witness: a file inside a subdirectory, processed after an earlier
file, gets its serialized response at its own mirrored json path and its
text verbatim at its own mirrored markdown path, spaces mapped to
underscores. -/
theorem c4_artifact_path_shape_w :
    (save_outputs ["o"] ["sub", "a b.txt"] [("text", Json.str "hello")]).writes =
      [(["o", "json", "sub", "a_b.json"], json_dump (Json.obj [("text", Json.str "hello")])),
       (["o", "markdown", "sub", "a_b.md"], "hello")] :=
  (c4_artifact_path_shape ["o"] ["sub", "a b.txt"] [["x.txt"]] [] c4Api
      [("text", Json.str "hello")] rfl rfl rfl).2.2.1 "hello" rfl

/-- C5 counterexample: a structured result whose `text` field holds a
non-string (here the number 5) does not get its value written as a text
artifact: `f.write` raises `TypeError` after the structured artifact is
written and the text file has been created empty. -/
theorem c5_text_counterexample :
    (save_outputs ["o"] ["f.txt"] [("text", Json.num 5)]).raised = true ∧
    (save_outputs ["o"] ["f.txt"] [("text", Json.num 5)]).writes =
      [(jsonArtifactPath ["o"] ["f.txt"], json_dump (Json.obj [("text", Json.num 5)])),
       (mdArtifactPath ["o"] ["f.txt"], "")] :=
  ⟨rfl, rfl⟩

/-- C5 amended: the structured artifact is always written; when the
writer completes without raising, a text artifact with content `s` exists
iff the result maps `text` to the string `s` (written verbatim, and a
result lacking the field produces no text artifact); the writer raises
(a `TypeError` from `f.write`) iff the result maps `text` to a
non-string value. -/
theorem c5_text_artifact (outDir rel : List String) (d : Dict) :
    (jsonArtifactPath outDir rel, json_dump (Json.obj d)) ∈ (save_outputs outDir rel d).writes ∧
    ((save_outputs outDir rel d).raised = false →
      ∀ s : String,
        ((mdArtifactPath outDir rel, s) ∈ (save_outputs outDir rel d).writes ↔
          dictLookup "text" d = some (Json.str s))) ∧
    ((save_outputs outDir rel d).raised = true ↔
      ∃ v, dictLookup "text" d = some v ∧ v.isStr = false) := by
  refine ⟨json_write_mem outDir rel d, ?_, ?_⟩
  · intro hok s
    rcases h : dictLookup "text" d with _ | v
    · simp only [save_outputs, h]
      constructor
      · intro hmem
        exfalso
        simp only [List.mem_singleton, Prod.mk.injEq] at hmem
        exact md_ne_json outDir rel hmem.1
      · intro hrhs
        exact absurd hrhs (by simp)
    · cases v with
      | str s0 =>
          simp only [save_outputs, h]
          constructor
          · intro hmem
            simp only [List.mem_cons, List.mem_singleton, Prod.mk.injEq,
              List.not_mem_nil, or_false] at hmem
            rcases hmem with ⟨hpath, _⟩ | ⟨_, hs⟩
            · exact absurd hpath (md_ne_json outDir rel)
            · rw [hs]
          · intro hrhs
            have hs : s0 = s := by
              have := Option.some.inj hrhs
              exact Json.str.inj this
            rw [hs]
            exact List.mem_cons_of_mem _ (List.mem_singleton_self _)
      | null => rw [save_outputs, h] at hok; simp at hok
      | bool b => rw [save_outputs, h] at hok; simp at hok
      | num n => rw [save_outputs, h] at hok; simp at hok
      | arr xs => rw [save_outputs, h] at hok; simp at hok
      | obj fs => rw [save_outputs, h] at hok; simp at hok
  · rcases h : dictLookup "text" d with _ | v
    · simp [save_outputs, h]
    · cases v <;> simp [save_outputs, h, Json.isStr]

/-- C5 witness: a string `text` value is written verbatim to the
markdown artifact path. -/
theorem c5_text_artifact_w :
    (mdArtifactPath ["o"] ["f.txt"], "hi") ∈
      (save_outputs ["o"] ["f.txt"] [("text", Json.str "hi")]).writes :=
  ((c5_text_artifact ["o"] ["f.txt"] [("text", Json.str "hi")]).2.1 rfl "hi").mpr rfl

/-- C6 counterexample: with `--api-url not-a-url` the process exits with
code 2 (argparse turns the `ArgumentTypeError` from `validate_url` into a
usage error), not 1 as claimed, although indeed before any scan of the
input tree and before any write. -/
theorem c6_exit_code_counterexample :
    mainRun "not-a-url" true ["outx"] [Entry.file "report.pdf"] (fun _ => ApiOutcome.exn) =
      ⟨2, false, []⟩ :=
  rfl

/-- C6 amended: an `--api-url` rejected by `validate_url` makes the
process exit with code 2 before any filesystem scan and before any write;
the possible exit codes are 0 (success, including zero files), 1
(missing input directory or an exception escaping the run) and 2
(argparse usage error). -/
theorem c6_exit_codes (apiUrl : String) (inputDirExists : Bool) (outDir : List String)
    (tree : List Entry) (api : List String → ApiOutcome) :
    (validate_url apiUrl = false →
      mainRun apiUrl inputDirExists outDir tree api = ⟨2, false, []⟩) ∧
    ((mainRun apiUrl inputDirExists outDir tree api).exitCode = 0 ∨
     (mainRun apiUrl inputDirExists outDir tree api).exitCode = 1 ∨
     (mainRun apiUrl inputDirExists outDir tree api).exitCode = 2) := by
  cases hv : validate_url apiUrl with
  | false =>
      refine ⟨fun _ => by simp [mainRun, hv], ?_⟩
      simp [mainRun, hv]
  | true =>
      refine ⟨fun hc => by simp [hv] at hc, ?_⟩
      cases he : inputDirExists with
      | false => simp [mainRun, hv, he]
      | true =>
          by_cases ha : (process_directory outDir api (get_all_files tree)).aborted
          · simp [mainRun, hv, he, ha]
          · simp [mainRun, hv, he, ha]

/-- C6 witness: the amended behaviour at the concrete invalid URL. -/
theorem c6_exit_codes_w :
    mainRun "not-a-url" true ["out"] [] (fun _ => ApiOutcome.exn) = ⟨2, false, []⟩ :=
  (c6_exit_codes "not-a-url" true ["out"] [] (fun _ => ApiOutcome.exn)).1 rfl

/-- C7: when the resolved input directory does not exist, the
`ValueError` raised in the constructor is caught in `main` and the
process exits with a non-zero code (1, or 2 when the URL was already
rejected) before the input tree is scanned, before any upload is
attempted and before any artifact is written. -/
theorem c7_missing_input (apiUrl : String) (outDir : List String) (tree : List Entry)
    (api : List String → ApiOutcome) :
    (validate_url apiUrl = true →
      mainRun apiUrl false outDir tree api = ⟨1, false, []⟩) ∧
    (mainRun apiUrl false outDir tree api).scanned = false ∧
    (mainRun apiUrl false outDir tree api).writes = [] ∧
    ((mainRun apiUrl false outDir tree api).exitCode = 1 ∨
     (mainRun apiUrl false outDir tree api).exitCode = 2) := by
  cases hv : validate_url apiUrl with
  | false =>
      refine ⟨fun hc => by simp [hv] at hc, ?_⟩
      simp [mainRun, hv]
  | true =>
      refine ⟨fun _ => by simp [mainRun, hv], ?_⟩
      simp [mainRun, hv]

/-- C7 witness: a valid URL and a missing input directory exit 1 with no
scan and no writes. -/
theorem c7_missing_input_w :
    mainRun "http://x" false ["out"] [Entry.file "a.txt"] (fun _ => ApiOutcome.exn) =
      ⟨1, false, []⟩ :=
  (c7_missing_input "http://x" ["out"] [Entry.file "a.txt"] (fun _ => ApiOutcome.exn)).1 rfl

/-- C8: the serialization of a structured result is a function of the
result, and re-applying a run's write list to the store produced by the
same write list changes nothing: a second run over identical inputs and
identical responses makes every artifact byte-identical to the first
run's (each write merely overwrites the file with the same content). -/
theorem c8_rerun_idempotent (outDir : List String) (files : List (List String))
    (api : List String → ApiOutcome) (sigma : Store) :
    applyWrites (applyWrites sigma (process_directory outDir api files).writes)
        (process_directory outDir api files).writes =
      applyWrites sigma (process_directory outDir api files).writes := by
  generalize (process_directory outDir api files).writes = ws
  funext q
  rw [applyWrites_eq]
  cases h : findLastWrite ws q with
  | some c =>
      rw [applyWrites_eq, h]
  | none =>
      simp only [h]

/-- C9: the safe-stem mapping is not injective: the distinct sibling
candidates `a b.txt` and `a_b.txt` both pass the filter and are assigned
the same structured-artifact path, and after a run that processes both,
the content at that shared path is the serialization of the later file's
response — the later artifact overwrote the earlier one. -/
theorem c9_safe_stem_collision :
    ((["a b.txt"] : List String) == ["a_b.txt"]) = false ∧
    should_process_file ["a b.txt"] = true ∧
    should_process_file ["a_b.txt"] = true ∧
    jsonArtifactPath ["out"] ["a b.txt"] = jsonArtifactPath ["out"] ["a_b.txt"] ∧
    applyWrites (fun _ => none)
        (process_directory ["out"] c9Api [["a b.txt"], ["a_b.txt"]]).writes
        (jsonArtifactPath ["out"] ["a b.txt"]) =
      some (json_dump (Json.obj [("b", Json.null)])) :=
  ⟨by decide, by decide, by decide, by decide, rfl⟩

/-- C10: a name that is a bare dot followed by an allowed extension, such
as `.txt`, has an empty `suffix` under the CPython rule (the only dot is
the leading one), so the filter rejects it and it never becomes a
candidate, even though the name itself is literally a member of the allow
set. -/
theorem c10_hidden_extension :
    pySuffix ".txt" = "" ∧
    pySuffix ".pdf" = "" ∧
    should_process_file [".txt"] = false ∧
    should_process_file [".pdf"] = false ∧
    (".txt" ∈ VALID_EXTENSIONS ∧ ".pdf" ∈ VALID_EXTENSIONS) ∧
    get_all_files [Entry.file ".txt"] = [] := by
  refine ⟨by decide, by decide, by decide, by decide, ⟨by decide, by decide⟩, ?_⟩
  have hw : walkList [] [Entry.file ".txt"] = [([".txt"], Entry.file ".txt")] := by
    simp [walkList]
  unfold get_all_files
  rw [hw]
  decide
